import Mathlib

/-!
Verification of the artifact-assembly layer of the blade build tool
(`src/blade/toolchain.py`) against its natural-language specification.

The Python module is shallowly embedded: file contents are byte strings
(`String`), the filesystem is an association list from path to file data,
zip archives are ordered lists of entries, and each generator is a pure
Lean function translated from the corresponding Python function.  Fallible
operations return `Except ToolErr`; an `Except.error` result corresponds to
an uncaught Python exception, which the `__main__` dispatch turns into a
non-zero process exit, and means no output archive was produced by the
model.  Wall-clock time enters through an explicit parameter `t`, because
`zipfile.ZipFile.writestr` stamps the current local time into the entry
header it synthesizes, while `ZipFile.write` and `tarfile.add` stamp the
source file's mtime.
-/

/-! ## Python string and posix path helpers

The toolchain operates on relative, slash-separated archive paths and on
plain (relative or absolute) posix file paths; the helpers below model the
`str` and `os.path` operations the module uses, on such inputs. -/

/-- Python `str.endswith` (suffix test). -/
def pyEndsWith (s suffix : String) : Bool := suffix.data.isSuffixOf s.data

/-- Python `str.startswith` (prefix test). -/
def pyStartsWith (s pre : String) : Bool := pre.data.isPrefixOf s.data

/-- Python `str.split('/')` on the character list: split at every slash,
keeping empty pieces (`""` splits to `[""]`). -/
def splitOnSlash : List Char → List (List Char)
  | [] => [[]]
  | ch :: rest =>
    let r := splitOnSlash rest
    if ch = '/' then [] :: r
    else
      match r with
      | [] => [[ch]]
      | g :: gs => (ch :: g) :: gs

/-- Python `str.split('/')`. -/
def pySplitSlash (s : String) : List String := (splitOnSlash s.data).map String.mk

/-- Apply a character map to a string. -/
def pyMap (f : Char → Char) (s : String) : String := ⟨s.data.map f⟩

/-- Python `str.lower()` (ASCII case fold, which is all the module uses). -/
def pyLower (s : String) : String := pyMap Char.toLower s

/-- Python `str.upper()`. -/
def pyUpper (s : String) : String := pyMap Char.toUpper s

/-- Python string comparison `a <= b`: lexicographic by code point. -/
def strLtChars : List Char → List Char → Bool
  | [], [] => false
  | [], _ :: _ => true
  | _ :: _, [] => false
  | a :: as, b :: bs =>
    if a.toNat < b.toNat then true
    else if b.toNat < a.toNat then false
    else strLtChars as bs

/-- Python string comparison `a <= b`. -/
def pyStrLe (a b : String) : Bool := !strLtChars b.data a.data

/-- Model of `os.path.basename` for slash-separated paths: the part after the last
slash. -/
def pathBasename (p : String) : String := ((pySplitSlash p).getLast?).getD ""

/-- Model of `os.path.dirname` for slash-separated relative paths: everything before
the last slash, `""` when there is no slash. -/
def pathDirname (p : String) : String :=
  String.intercalate "/" ((pySplitSlash p).dropLast)

/-- Model of `os.path.join a b` for a non-absolute second component. -/
def pathJoin (a b : String) : String := if a = "" then b else a ++ "/" ++ b

/-- The slash-separated components of a path, empty components dropped
(as `posixpath.relpath` does via `[x for x in path.split(sep) if x]`). -/
def splitParts (p : String) : List String := (pySplitSlash p).filter (· ≠ "")

/-- Length of the longest common prefix of two component lists
(`os.path.commonprefix` on lists). -/
def commonLen : List String → List String → Nat
  | a :: as, b :: bs => if a = b then commonLen as bs + 1 else 0
  | _, _ => 0

/-- Model of `os.path.relpath path start` for posix paths that are either both
relative or both absolute (the only uses in the module), where `abspath`
prepends the same working directory to both and so cancels out. -/
def relpath (path start : String) : String :=
  let pl := splitParts path
  let sl := splitParts start
  let i := commonLen sl pl
  let rel := List.replicate (sl.length - i) ".." ++ pl.drop i
  if rel = [] then "." else String.intercalate "/" rel

/-! ## Filesystem and archive model -/

/-- A file on disk: its byte content and its modification time. -/
structure FileData where
  bytes : String
  mtime : Nat
deriving DecidableEq, Repr

/-- The filesystem visible to one generator invocation: association list
from path to file data (`lookup` finds the first match). -/
abbrev FS := List (String × FileData)

/-- Read a file (`open(path).read()` / `os.path.getsize`); `none` models an
`IOError`. -/
def fsRead (fs : FS) (p : String) : Option FileData := fs.lookup p

/-- One entry of a zip archive: its archive-relative name, its data bytes,
and the modification time recorded in its header.  `ZipFile.write` records
the source file's mtime; `ZipFile.writestr` records the current time. -/
structure ZipEntry where
  name : String
  bytes : String
  mtime : Nat
deriving DecidableEq, Repr

/-- Model of the zip container bytes produced when a `ZipFile` opened in
`'w'` mode is closed: a deterministic function of the ordered entry list,
in which each entry's header carries its name and recorded mtime followed
by its data (central directory elided; faithful in that the bytes depend
on exactly the names, data and header mtimes, in order). -/
def serializeZip (entries : List ZipEntry) : String :=
  String.join (entries.map fun e =>
    "PK" ++ toString e.name.length ++ "," ++ toString e.mtime ++ ","
      ++ toString e.bytes.length ++ ":" ++ e.name ++ e.bytes)

/-- Uncaught Python exceptions of the module; each one propagates out of
the toolchain function and yields a non-zero process exit with no
(complete) output. -/
inductive ToolErr where
  | assertionError
  | indexError
  | keyError (key : String)
  | ioError (path : String)
deriving DecidableEq, Repr

/-- Modelled from the spec: `blade_util.md5sum_file` (blade_util is not
under src/) returns a hex content hash of the file's bytes — an integrity,
not cryptographic-security, digest.  Modelled as an executable digest that
is a function of exactly the byte string. -/
def md5sum_file (bytes : String) : String :=
  toString (bytes.data.foldl (fun h c => (h * 131 + c.toNat) % 1000000007) 7)

/-! ## Archive Packager (`toolchain.py` lines 68–120) -/

/-- Source constant `_PACKAGE_MANIFEST` (line 68). -/
def _PACKAGE_MANIFEST : String := "MANIFEST.TXT"

/-- Source function `archive_package_sources` (lines 71–76): for each source in order,
archive it at `destinations[i]` and record the manifest line
`'%s %s' % (md5sum_file(s), destinations[i])`.  Returns the archived
`(destination, file)` pairs and the manifest lines.  A missing source file
raises `IOError` inside `package`; exhausting `destinations` first raises
`IndexError` (Python evaluates `destinations[i]` before calling
`package`, hence before reading the source). -/
def archive_package_sources (fs : FS) :
    List String → List String → Except ToolErr (List (String × FileData) × List String)
  | [], _ => .ok ([], [])
  | _ :: _, [] => .error .indexError
  | s :: ss, d :: ds =>
    match fsRead fs s with
    | none => .error (.ioError s)
    | some file =>
      match archive_package_sources fs ss ds with
      | .error e => .error e
      | .ok (pairs, lines) =>
        .ok ((d, file) :: pairs, (md5sum_file file.bytes ++ " " ++ d) :: lines)

/-- Source function `generate_zip_package` (lines 79–83): write every source into a fresh
zip via `zip.write` (entry mtime = file mtime), then `writestr` the
manifest entry `MANIFEST.TXT` = `'\n'.join(manifest) + '\n'` (entry mtime =
current time `t`).  Result is the ordered entry list of the archive. -/
def generate_zip_package (fs : FS) (t : Nat) (sources destinations : List String) :
    Except ToolErr (List ZipEntry) :=
  match archive_package_sources fs sources destinations with
  | .error e => .error e
  | .ok (pairs, manifest) =>
    .ok ((pairs.map fun pd => ⟨pd.1, pd.2.bytes, pd.2.mtime⟩)
      ++ [⟨_PACKAGE_MANIFEST, String.intercalate "\n" manifest ++ "\n", t⟩])

/-- Source constant `_TAR_WRITE_MODES` (lines 86–92), in source order.  CPython 2's dict
iteration order over these keys is implementation-defined; the claims
settled below do not depend on the order, only on the key set, so the
model fixes source order. -/
def _TAR_WRITE_MODES : List (String × String) :=
  [("tar", "w"), ("tar.gz", "w:gz"), ("tgz", "w:gz"),
   ("tar.bz2", "w:bz2"), ("tbz", "w:bz2")]

/-- A produced tar-family archive: output path, tarfile write mode, the
archived `(name, file)` entries in order, and the content of the
`<path>.MANIFEST` side file (also archived as the last entry). -/
structure TarOutput where
  path : String
  mode : String
  entries : List (String × FileData)
  manifestSide : String
deriving DecidableEq, Repr

/-- Source function `generate_tar_package` (lines 95–104): look the suffix up in
`_TAR_WRITE_MODES` (a missing key raises `KeyError`), archive every source
with symlinks dereferenced, write the side file
`'\n'.join(manifest) + '\n\n'` at the current time, and add it into the
archive under `MANIFEST.TXT`. -/
def generate_tar_package (fs : FS) (t : Nat) (path : String)
    (sources destinations : List String) (suffix : String) :
    Except ToolErr TarOutput :=
  match _TAR_WRITE_MODES.lookup suffix with
  | none => .error (.keyError suffix)
  | some mode =>
    match archive_package_sources fs sources destinations with
    | .error e => .error e
    | .ok (pairs, manifest) =>
      let side := String.intercalate "\n" manifest ++ "\n\n"
      .ok ⟨path, mode, pairs ++ [(_PACKAGE_MANIFEST, ⟨side, t⟩)], side⟩

/-- The archive produced by one `generate_package_entry` invocation. -/
inductive PackageOutput where
  | zip (path : String) (entries : List ZipEntry)
  | tar (out : TarOutput)
deriving DecidableEq, Repr

/-- The suffix left bound by the loop
`for suffix in _TAR_WRITE_MODES.keys(): if path.endswith(suffix): break`
(lines 117–119): the first matching key, or — because the loop has no
`else` and the loop variable survives it — the last key iterated when none
matches. -/
def tarSuffixLoop : List (String × String) → String → String → String
  | [], _, last => last
  | (k, _) :: rest, path, _ =>
    if pyEndsWith path k then k else tarSuffixLoop rest path k

/-- Source function `generate_package_entry` (lines 107–120): `args[0]` is the output path
(`IndexError` when absent); the remainder must split evenly into sources
then destinations (`assert len(manifest) % 2 == 0`, an odd length raises
`AssertionError` before any file is opened); a `.zip` path goes to the zip
packager, anything else to the tar packager with the suffix left by the
loop above. -/
def generate_package_entry (fs : FS) (t : Nat) (args : List String) :
    Except ToolErr PackageOutput :=
  match args with
  | [] => .error .indexError
  | path :: manifest =>
    if manifest.length % 2 ≠ 0 then .error .assertionError
    else
      let middle := manifest.length / 2
      let sources := manifest.take middle
      let destinations := manifest.drop middle
      if pyEndsWith path ".zip" then
        (generate_zip_package fs t sources destinations).map (PackageOutput.zip path)
      else
        (generate_tar_package fs t path sources destinations
          (tarSuffixLoop _TAR_WRITE_MODES path "")).map PackageOutput.tar

/-! ## Jar Merge Engine, one-jar variant (`toolchain.py` lines 297–347) -/

/-- An input jar as the module sees it: its filesystem path, its raw file
bytes with their mtime (used when the whole jar is nested verbatim via
`ZipFile.write`), and its zip entry list `(name, data)` in `namelist()`
order (the view `zipfile.ZipFile(path, 'r')` parses out of those bytes). -/
structure JarFile where
  path : String
  bytes : String
  mtime : Nat
  entries : List (String × String)
deriving DecidableEq, Repr

/-- The manifest text written at lines 335–340:
`Manifest-Version: 1.0` / `Main-Class: com.simontuffs.onejar.Boot` /
`One-Jar-Main-Class: %s` followed by the blank line the triple-quoted
literal ends with. -/
def oneJarManifest (main_class : String) : String :=
  "Manifest-Version: 1.0\nMain-Class: com.simontuffs.onejar.Boot\nOne-Jar-Main-Class: "
    ++ main_class ++ "\n\n"

/-- The resource-copy loop body of lines 322–331 for one inner jar: every
entry that is not a `.class` file, does not live under `META-INF`
(case-insensitive), and is not already in `jar_path_set` is written to the
archive root (`writestr`, hence stamped with the current time `t`) and
marked seen.  The accumulator pairs the entries written so far with the
seen set. -/
def copyJarResources (t : Nat) (acc : List ZipEntry × List String) :
    List (String × String) → List ZipEntry × List String
  | [] => acc
  | (name, data) :: rest =>
    if pyEndsWith name ".class" || pyStartsWith (pyUpper name) "META-INF" then
      copyJarResources t acc rest
    else if name ∈ acc.2 then
      copyJarResources t acc rest
    else
      copyJarResources t (acc.1 ++ [⟨name, data, t⟩], name :: acc.2) rest

/-- Source function `generate_one_jar` (lines 297–341): (1) copy every boot-jar entry whose
lowercased name does not end in `manifest.mf`, marking the copied names
seen; (2) nest the main jar's bytes at `main/<basename>`; (3) nest each
dependency jar's bytes at `lib/<basename>`; (4) for the main jar then each
dependency in order, copy unseen non-class non-`META-INF` entries to the
archive root; (5) append the synthesized `META-INF/MANIFEST.MF`.  Returns
the output archive's entry list in write order. -/
def generate_one_jar (t : Nat) (main_class : String) (main_jar : JarFile)
    (jars : List JarFile) (bootjar : JarFile) : List ZipEntry :=
  let bootKept := bootjar.entries.filter
    (fun e => !pyEndsWith (pyLower e.1) "manifest.mf")
  let step1 : List ZipEntry := bootKept.map fun e => ⟨e.1, e.2, t⟩
  let seen1 : List String := bootKept.map (·.1)
  let step2 : List ZipEntry :=
    [⟨"main/" ++ pathBasename main_jar.path, main_jar.bytes, main_jar.mtime⟩]
  let step3 : List ZipEntry :=
    jars.map fun d => ⟨"lib/" ++ pathBasename d.path, d.bytes, d.mtime⟩
  let step4 := (([main_jar] ++ jars).foldl
    (fun acc j => copyJarResources t acc j.entries) ([], seen1)).1
  step1 ++ step2 ++ step3 ++ step4
    ++ [⟨"META-INF/MANIFEST.MF", oneJarManifest main_class, t⟩]

/-! ## Resource Embedder (`toolchain.py` lines 134–190) -/

/-- Modelled from the spec: `blade_util.regular_variable_name` (blade_util
is not under src/) replaces every non-identifier character of its argument
with an underscore. -/
def regular_variable_name (s : String) : String :=
  pyMap (fun c => if c.isAlphanum || c = '_' then c else '_') s

/-- One resource's generated declarations, structurally: the byte-array
symbol `RESOURCE_<entry_var>` (declared in the header as
`extern const char RESOURCE_<entry_var>[<size>]` with companion length
symbol `RESOURCE_<entry_var>_len`), the index-table name string
`<entry_name>`, and the size used in both. -/
structure ResEntry where
  symbol : String
  name : String
  size : Nat
deriving DecidableEq, Repr

/-- The per-source loop of `generate_resource_index` (lines 162–169): for
each source `s` in order, `entry_var = regular_variable_name(s)` (note:
applied to `s` itself), `entry_name = os.path.relpath(s, path)`,
`entry_size = os.path.getsize(s)`; a missing source raises `OSError` at
`getsize`.  Returns the generated entries in input order. -/
def generate_resource_index (fs : FS) (path : String) :
    List String → Except ToolErr (List ResEntry)
  | [] => .ok []
  | s :: ss =>
    match fsRead fs s with
    | none => .error (.ioError s)
    | some file =>
      match generate_resource_index fs path ss with
      | .error e => .error e
      | .ok es =>
        .ok (⟨"RESOURCE_" ++ regular_variable_name s, relpath s path,
              file.bytes.length⟩ :: es)

/-! ## Interpreted-Language Archive Builder (`toolchain.py` lines 435–478) -/

/-- A parsed library manifest file (the `eval`-ed dict written by
`generate_python_library_entry`): its base directory and its ordered
`(source-path, digest)` list. -/
structure PyLib where
  base_dir : String
  srcs : List (String × String)
deriving DecidableEq, Repr

/-- Add an element to a Python set modelled as a duplicate-free list. -/
def addSet (s : List String) (x : String) : List String :=
  if x ∈ s then s else s ++ [x]

/-- The proper directory prefixes of a relative archive name, shallowest
first: the chain produced by the loop `while dir: dirs.add(dir);
dir = os.path.dirname(dir)` of lines 439–441 (membership-equal; the set
erases the loop's deepest-first order). -/
def dirPrefixes (arcname : String) : List String :=
  let parts := (pySplitSlash arcname).dropLast
  (List.range parts.length).map fun k => String.intercalate "/" (parts.take (k + 1))

/-- Source function `_update_init_py_dirs` (lines 435–441): record the entry's directory in
`dirs_with_init_py` when its basename is `__init__.py`, and record every
non-empty directory prefix of the entry in `dirs`. -/
def _update_init_py_dirs (arcname : String) (dirs dirs_with_init_py : List String) :
    List String × List String :=
  let dwi :=
    if pathBasename arcname = "__init__.py" then
      addSet dirs_with_init_py (pathDirname arcname)
    else dirs_with_init_py
  ((dirPrefixes arcname).foldl addSet dirs, dwi)

/-- The inner loop of lines 455–458 for one library: for each
`(libsrc, digest)` pair, `arcname = os.path.relpath(libsrc,
pylib_base_dir)`, update the directory sets, and `pybin.write(libsrc,
arcname)` (entry stamped with the file's mtime; a missing file raises
`IOError`).  State: (entries written so far, dirs, dirs_with_init_py). -/
def pyBinCopySrcs (fs : FS) (base : String) :
    List (String × String) → List ZipEntry × List String × List String →
    Except ToolErr (List ZipEntry × List String × List String)
  | [], st => .ok st
  | (libsrc, _) :: rest, (entries, dirs, dwi) =>
    let arcname := relpath libsrc base
    let (dirs2, dwi2) := _update_init_py_dirs arcname dirs dwi
    match fsRead fs libsrc with
    | none => .error (.ioError libsrc)
    | some file =>
      pyBinCopySrcs fs base rest (entries ++ [⟨arcname, file.bytes, file.mtime⟩], dirs2, dwi2)

/-- The outer loop of lines 450–458: process each library manifest in
order, threading the entry list and both directory sets. -/
def pyBinCopyLibs (fs : FS) :
    List PyLib → List ZipEntry × List String × List String →
    Except ToolErr (List ZipEntry × List String × List String)
  | [], st => .ok st
  | lib :: rest, st =>
    match pyBinCopySrcs fs lib.base_dir lib.srcs st with
    | .error e => .error e
    | .ok st2 => pyBinCopyLibs fs rest st2

/-- Python `sorted` on strings: lexicographic ascending.  The inputs it is
applied to are duplicate-free, so any correct sort yields the same list. -/
def sortStr (l : List String) : List String :=
  List.insertionSort (fun a b => pyStrLe a b = true) l

/-- Lines 460–464: `dirs_missing_init_py = dirs - dirs_with_init_py`; for
each such directory in sorted order `writestr` an empty
`<dir>/__init__.py` (stamped with the current time `t`); then
unconditionally `writestr` an empty root-level `__init__.py`. -/
def pyBinMarkers (t : Nat) (dirs dirs_with_init_py : List String) : List ZipEntry :=
  (sortStr (dirs.filter (fun d => d ∉ dirs_with_init_py))).map
      (fun d => ⟨pathJoin d "__init__.py", "", t⟩)
    ++ [⟨"__init__.py", "", t⟩]

/-- The bootstrap header of lines 472–473, with `%s` filled by the main
entry module name. -/
def pythonBootstrap (mainentry : String) : String :=
  "#!/bin/sh\n\nPYTHONPATH=\"$0:$PYTHONPATH\" exec python -m \"" ++ mainentry
    ++ "\" \"$@\"\n"

/-- The single output file of the builder as it evolves through the write /
read-back / rewrite sequence of lines 448–478. -/
structure OutFile where
  bytes : String
  executable : Bool
deriving DecidableEq, Repr

/-- Model of `open(path, 'wb')` followed by `write`/`close`: replace the file's
bytes, leaving its mode bits alone. -/
def writeFile (f : OutFile) (b : String) : OutFile := ⟨b, f.executable⟩

/-- Model of `open(path, 'rb').read()`. -/
def readFile (f : OutFile) : String := f.bytes

/-- Model of `os.chmod(path, 0755)`: mark the file executable. -/
def chmod755 (f : OutFile) : OutFile := ⟨f.bytes, true⟩

/-- Source function `generate_python_binary_entry` (lines 444–478), from the point where
the argument files have been parsed into `PyLib` records (the outer
`basedir` argument is normalized at lines 445–447 but never used
afterwards — each library's own `base_dir` decides arcnames): copy every
library source into a fresh zip, synthesize the missing `__init__.py`
markers, close the zip (the output file now holds the serialized archive),
read the complete archive bytes back, rewrite the file as bootstrap
followed by those bytes unchanged, and `chmod 0755` it.  Returns the final
output file together with the archive's entry list. -/
def generate_python_binary_entry (fs : FS) (t : Nat) (mainentry : String)
    (libs : List PyLib) : Except ToolErr (OutFile × List ZipEntry) :=
  match pyBinCopyLibs fs libs ([], [], []) with
  | .error e => .error e
  | .ok (entries, dirs, dwi) =>
    let allEntries := entries ++ pyBinMarkers t dirs dwi
    let out1 := writeFile ⟨"", false⟩ (serializeZip allEntries)
    let zip_content := readFile out1
    let out2 := writeFile out1 (pythonBootstrap mainentry ++ zip_content)
    .ok (chmod755 out2, allEntries)

/-! ## Helper lemmas -/

deriving instance DecidableEq for Except

/-- A string with prefix `pre` differs from any `target` that does not
start with `pre`. -/
theorem append_ne_of_take (pre s target : String)
    (h : target.data.take pre.data.length ≠ pre.data) : pre ++ s ≠ target := by
  intro he
  apply h
  rw [← he, String.data_append, List.take_left]

/-! ## Claims -/

/-- C8: For every one-jar merge, the synthesized `META-INF/MANIFEST.MF`
entry is the last entry written; its `Main-Class` attribute is the fixed
bootstrap loader `com.simontuffs.onejar.Boot`, it carries the real entry
class name in the custom `One-Jar-Main-Class` attribute, and its text ends
with a trailing blank line (a final `"\n\n"`). -/
theorem onejar_manifest_entry (t : Nat) (mc : String) (mj : JarFile)
    (jars : List JarFile) (bj : JarFile) :
    (generate_one_jar t mc mj jars bj).getLast? =
      some ⟨"META-INF/MANIFEST.MF",
        "Manifest-Version: 1.0\nMain-Class: com.simontuffs.onejar.Boot\nOne-Jar-Main-Class: "
          ++ mc ++ "\n\n", t⟩ ∧
    ∃ body, oneJarManifest mc = body ++ "\n\n" := by
  constructor
  · exact List.getLast?_concat _
  · exact ⟨"Manifest-Version: 1.0\nMain-Class: com.simontuffs.onejar.Boot\nOne-Jar-Main-Class: "
      ++ mc, rfl⟩

/-- C9: For every archive-packager invocation whose argument list after the
output path has odd length, the operation fails with `AssertionError`
(hence a non-zero exit) before any file is opened or any output produced:
the model returns the error without constructing a `PackageOutput`. -/
theorem package_entry_odd_args_assertion (fs : FS) (t : Nat) (path : String)
    (manifest : List String) (hodd : manifest.length % 2 = 1) :
    generate_package_entry fs t (path :: manifest) = .error .assertionError := by
  have h2 : manifest.length % 2 ≠ 0 := by omega
  simp [generate_package_entry, h2]

/-- Witness for C9 at `args = ["out.zip", "s"]`. -/
theorem package_entry_odd_args_assertion_witness :
    ["s"].length % 2 = 1 ∧
    generate_package_entry [] 0 ("out.zip" :: ["s"]) = .error .assertionError :=
  ⟨by decide, package_entry_odd_args_assertion [] 0 "out.zip" ["s"] (by decide)⟩

/-- C4 (code bug): an output path ending in none of the recognized
suffixes does NOT abort.  The loop
`for suffix in _TAR_WRITE_MODES.keys(): if path.endswith(suffix): break`
has no `else` clause, so when nothing matches the loop variable is left
bound to the last key iterated and `generate_tar_package` is called with
it: for `out.dat` with one readable source the invocation succeeds and
writes a tar archive (here in mode `w:bz2`), exiting zero. -/
theorem package_entry_unrecognized_suffix_writes_tar :
    generate_package_entry [("s", ⟨"hello", 5⟩)] 0 ["out.dat", "s", "d"] =
      .ok (.tar ⟨"out.dat", "w:bz2",
        [("d", ⟨"hello", 5⟩), ("MANIFEST.TXT", ⟨"913342079 d\n\n", 0⟩)],
        "913342079 d\n\n"⟩) := by
  decide

/-- C5 counterexample: with source `root/a.txt` under embedding root
`root`, the generated byte-array symbol is `RESOURCE_root_a_txt` —
sanitized from the full source path (line 163 applies
`regular_variable_name` to `s`) — and not
`RESOURCE_` ++ the sanitized path relative to the root (`a.txt`). -/
theorem resource_symbol_not_from_relative_path :
    generate_resource_index [("root/a.txt", ⟨"xyz", 7⟩)] "root" ["root/a.txt"] =
      .ok [⟨"RESOURCE_root_a_txt", "a.txt", 3⟩] ∧
    "RESOURCE_root_a_txt" ≠
      "RESOURCE_" ++ regular_variable_name (relpath "root/a.txt" "root") := by
  constructor
  · decide
  · decide

/-- C5 (amended): each resource's generated byte-array symbol identifier is
derived from the resource's source path as passed (not from its path
relative to the embedding root), with every non-identifier character
replaced by an underscore; the root-relative path is used only as the
index-table name string. -/
theorem resource_symbol_from_source_path (fs : FS) (path : String) :
    ∀ (sources : List String) (entries : List ResEntry),
    generate_resource_index fs path sources = .ok entries →
    entries.length = sources.length ∧
    ∀ i (hi : i < entries.length) (hs : i < sources.length),
      (entries.get ⟨i, hi⟩).symbol =
        "RESOURCE_" ++ regular_variable_name (sources.get ⟨i, hs⟩) ∧
      (entries.get ⟨i, hi⟩).name = relpath (sources.get ⟨i, hs⟩) path := by
  intro sources
  induction sources with
  | nil =>
    intro entries h
    simp only [generate_resource_index, Except.ok.injEq] at h
    subst h
    exact ⟨rfl, fun i hi _ => absurd hi (by simp)⟩
  | cons s ss ih =>
    intro entries h
    unfold generate_resource_index at h
    cases hr : fsRead fs s with
    | none => rw [hr] at h; cases h
    | some file =>
      rw [hr] at h
      cases hrec : generate_resource_index fs path ss with
      | error e => rw [hrec] at h; cases h
      | ok es =>
        rw [hrec] at h
        simp only [Except.ok.injEq] at h
        subst h
        obtain ⟨hl, hidx⟩ := ih es hrec
        refine ⟨by simp [hl], ?_⟩
        intro i hi hs
        cases i with
        | zero => exact ⟨rfl, rfl⟩
        | succ j =>
          exact hidx j (by simpa using hi) (by simpa using hs)

/-- Witness for C5's amended theorem at a concrete spec. -/
theorem resource_symbol_from_source_path_witness :
    generate_resource_index [("root/a.txt", ⟨"xyz", 7⟩)] "root" ["root/a.txt"] =
      .ok [⟨"RESOURCE_root_a_txt", "a.txt", 3⟩] ∧
    ([(⟨"RESOURCE_root_a_txt", "a.txt", 3⟩ : ResEntry)].length = ["root/a.txt"].length ∧
     ∀ i (hi : i < [(⟨"RESOURCE_root_a_txt", "a.txt", 3⟩ : ResEntry)].length)
       (hs : i < ["root/a.txt"].length),
       ([(⟨"RESOURCE_root_a_txt", "a.txt", 3⟩ : ResEntry)].get ⟨i, hi⟩).symbol =
         "RESOURCE_" ++ regular_variable_name (["root/a.txt"].get ⟨i, hs⟩) ∧
       ([(⟨"RESOURCE_root_a_txt", "a.txt", 3⟩ : ResEntry)].get ⟨i, hi⟩).name =
         relpath (["root/a.txt"].get ⟨i, hs⟩) "root") :=
  ⟨by decide,
   resource_symbol_from_source_path [("root/a.txt", ⟨"xyz", 7⟩)] "root"
     ["root/a.txt"] [⟨"RESOURCE_root_a_txt", "a.txt", 3⟩] (by decide)⟩

/-- C1: for every successful run of the interpreted-language archive
builder, the final output file is exactly the bootstrap script bytes
followed by the archive bytes that were written and read back —
`serializeZip` of the entry list, unaltered — and the file is marked
executable. -/
theorem python_binary_polyglot_concat (fs : FS) (t : Nat) (me : String)
    (libs : List PyLib) (out : OutFile) (entries : List ZipEntry)
    (h : generate_python_binary_entry fs t me libs = .ok (out, entries)) :
    out.bytes = pythonBootstrap me ++ serializeZip entries ∧
    out.executable = true := by
  unfold generate_python_binary_entry at h
  cases hc : pyBinCopyLibs fs libs ([], [], []) with
  | error e => rw [hc] at h; cases h
  | ok st =>
    obtain ⟨es, dirs, dwi⟩ := st
    rw [hc] at h
    simp only [writeFile, readFile, chmod755, Except.ok.injEq, Prod.mk.injEq] at h
    obtain ⟨h1, h2⟩ := h
    subst h2
    subst h1
    exact ⟨rfl, rfl⟩

/-- Characterization of a successful `archive_package_sources` run with
matching source/destination counts: the archived pairs carry the
destinations in order, there is one manifest line per source, and each
line is the hash of that source's bytes as read from the filesystem at
generation time, a space, and the destination. -/
theorem archive_package_sources_spec (fs : FS) :
    ∀ (sources destinations : List String), sources.length = destinations.length →
    ∀ (pairs : List (String × FileData)) (lines : List String),
    archive_package_sources fs sources destinations = .ok (pairs, lines) →
    pairs.map Prod.fst = destinations ∧ lines.length = sources.length ∧
    ∀ i (hi : i < sources.length) (hl : i < lines.length) (hd : i < destinations.length),
      ∃ file, fsRead fs (sources.get ⟨i, hi⟩) = some file ∧
        lines.get ⟨i, hl⟩ =
          md5sum_file file.bytes ++ " " ++ destinations.get ⟨i, hd⟩ := by
  intro sources
  induction sources with
  | nil =>
    intro destinations hlen pairs lines h
    cases destinations with
    | nil =>
      simp only [archive_package_sources, Except.ok.injEq, Prod.mk.injEq] at h
      obtain ⟨h1, h2⟩ := h
      subst h1; subst h2
      exact ⟨rfl, rfl, fun i hi _ _ => absurd hi (by simp)⟩
    | cons d ds => simp at hlen
  | cons s ss ih =>
    intro destinations hlen pairs lines h
    cases destinations with
    | nil => simp at hlen
    | cons d ds =>
      unfold archive_package_sources at h
      cases hr : fsRead fs s with
      | none => rw [hr] at h; cases h
      | some file =>
        rw [hr] at h
        cases hrec : archive_package_sources fs ss ds with
        | error e => rw [hrec] at h; cases h
        | ok pr =>
          obtain ⟨ps, ls⟩ := pr
          rw [hrec] at h
          simp only [Except.ok.injEq, Prod.mk.injEq] at h
          obtain ⟨hp, hl⟩ := h
          subst hp; subst hl
          obtain ⟨ih1, ih2, ih3⟩ := ih ds (by simpa using hlen) ps ls hrec
          refine ⟨by simp [ih1], by simp [ih2], ?_⟩
          intro i hi hl hd
          cases i with
          | zero => exact ⟨file, hr, rfl⟩
          | succ j =>
            exact ih3 j (by simpa using hi) (by simpa using hl) (by simpa using hd)

/-- C2: for every archive plan with `N` (source, destination) pairs whose
destinations are unique, the zip packager produces an archive of exactly
`N + 1` entries — the `N` sources at their destinations, in order, plus one
final manifest entry named `MANIFEST.TXT` — and for each source the
manifest records the line `<hash> <destination>` where the hash is the
content hash of that source file's bytes as read at generation time. -/
theorem zip_package_entries_and_manifest (fs : FS) (t : Nat)
    (sources destinations : List String) (entries : List ZipEntry)
    (hlen : sources.length = destinations.length)
    (hnd : destinations.Nodup)
    (h : generate_zip_package fs t sources destinations = .ok entries) :
    entries.length = sources.length + 1 ∧
    entries.map (fun e => e.name) = destinations ++ [_PACKAGE_MANIFEST] ∧
    ∃ lines : List String, lines.length = sources.length ∧
      entries.getLast? =
        some ⟨_PACKAGE_MANIFEST, String.intercalate "\n" lines ++ "\n", t⟩ ∧
      ∀ i (hi : i < sources.length) (hl : i < lines.length) (hd : i < destinations.length),
        ∃ file, fsRead fs (sources.get ⟨i, hi⟩) = some file ∧
          lines.get ⟨i, hl⟩ =
            md5sum_file file.bytes ++ " " ++ destinations.get ⟨i, hd⟩ := by
  unfold generate_zip_package at h
  cases hr : archive_package_sources fs sources destinations with
  | error e => rw [hr] at h; cases h
  | ok pr =>
    obtain ⟨pairs, lines⟩ := pr
    rw [hr] at h
    simp only [Except.ok.injEq] at h
    subst h
    obtain ⟨h1, h2, h3⟩ := archive_package_sources_spec fs sources destinations hlen pairs lines hr
    have hplen : pairs.length = sources.length := by
      have := congrArg List.length h1
      simpa [hlen] using this
    refine ⟨by simp [hplen], ?_, lines, h2, List.getLast?_concat _, h3⟩
    rw [← h1]
    simp

/-- Witness for C2 at a two-source plan. -/
theorem zip_package_entries_and_manifest_witness :
    (["s1", "s2"] : List String).length = (["d1", "d2"] : List String).length ∧
    (["d1", "d2"] : List String).Nodup ∧
    generate_zip_package [("s1", ⟨"hello", 5⟩), ("s2", ⟨"world", 6⟩)] 0
        ["s1", "s2"] ["d1", "d2"] =
      .ok [⟨"d1", "hello", 5⟩, ⟨"d2", "world", 6⟩,
           ⟨"MANIFEST.TXT", "913342079 d1\n353424724 d2\n", 0⟩] ∧
    ([⟨"d1", "hello", 5⟩, ⟨"d2", "world", 6⟩,
      ⟨"MANIFEST.TXT", "913342079 d1\n353424724 d2\n", 0⟩] : List ZipEntry).length =
      (["s1", "s2"] : List String).length + 1 :=
  ⟨by decide, by decide, by decide,
   (zip_package_entries_and_manifest [("s1", ⟨"hello", 5⟩), ("s2", ⟨"world", 6⟩)] 0
     ["s1", "s2"] ["d1", "d2"]
     [⟨"d1", "hello", 5⟩, ⟨"d2", "world", 6⟩,
      ⟨"MANIFEST.TXT", "913342079 d1\n353424724 d2\n", 0⟩]
     (by decide) (by decide) (by decide)).1⟩

/-- C3: merging a boot-runtime jar `B` (a manifest entry plus one other
entry `x`), a main jar `M` (`App.class` and `res/a.txt`), and a dependency
jar `D` (`res/a.txt` with different content and `lib.class`): the output
contains `x` from `B`; contains `main/<basename of M>` and
`lib/<basename of D>` as verbatim nested copies of the jars' bytes;
contains top-level `res/a.txt` with `M`'s content and with no other
`res/a.txt` entry carrying different bytes (earlier sources win: runtime,
then main, then dependencies in order); and contains no top-level
`App.class` or `lib.class`. -/
theorem onejar_merge_scenario
    (t : Nat) (mc : String)
    (mpath mbytes : String) (mmt : Nat) (cA ca : String)
    (dpath dbytes : String) (dmt : Nat) (cd cl : String)
    (bpath bbytes : String) (bmt : Nat) (mfData xn xc : String)
    (out : List ZipEntry)
    (hdef : out = generate_one_jar t mc
      ⟨mpath, mbytes, mmt, [("App.class", cA), ("res/a.txt", ca)]⟩
      [⟨dpath, dbytes, dmt, [("res/a.txt", cd), ("lib.class", cl)]⟩]
      ⟨bpath, bbytes, bmt, [("META-INF/MANIFEST.MF", mfData), (xn, xc)]⟩)
    (hx_mf : pyEndsWith (pyLower xn) "manifest.mf" = false)
    (hxr : xn ≠ "res/a.txt") (hxa : xn ≠ "App.class") (hxl : xn ≠ "lib.class")
    (hcd : ca ≠ cd) :
    ZipEntry.mk xn xc t ∈ out ∧
    ZipEntry.mk ("main/" ++ pathBasename mpath) mbytes mmt ∈ out ∧
    ZipEntry.mk ("lib/" ++ pathBasename dpath) dbytes dmt ∈ out ∧
    ZipEntry.mk "res/a.txt" ca t ∈ out ∧
    (∀ e ∈ out, e.name = "res/a.txt" → e.bytes = ca) ∧
    (∀ e ∈ out, e.name ≠ "App.class" ∧ e.name ≠ "lib.class") := by
  have hout : out =
      [⟨xn, xc, t⟩,
       ⟨"main/" ++ pathBasename mpath, mbytes, mmt⟩,
       ⟨"lib/" ++ pathBasename dpath, dbytes, dmt⟩,
       ⟨"res/a.txt", ca, t⟩,
       ⟨"META-INF/MANIFEST.MF", oneJarManifest mc, t⟩] := by
    rw [hdef]
    simp +decide [generate_one_jar, copyJarResources, hx_mf, hxr, Ne.symm hxr]
  rw [hout]
  refine ⟨by simp, by simp, by simp, by simp, ?_, ?_⟩
  · intro e he hn
    simp only [List.mem_cons, List.not_mem_nil, or_false] at he
    rcases he with rfl | rfl | rfl | rfl | rfl
    · exact absurd hn hxr
    · exact absurd hn (append_ne_of_take "main/" _ "res/a.txt" (by decide))
    · exact absurd hn (append_ne_of_take "lib/" _ "res/a.txt" (by decide))
    · rfl
    · exact absurd hn (by decide : ("META-INF/MANIFEST.MF" : String) ≠ "res/a.txt")
  · intro e he
    simp only [List.mem_cons, List.not_mem_nil, or_false] at he
    rcases he with rfl | rfl | rfl | rfl | rfl
    · exact ⟨hxa, hxl⟩
    · exact ⟨append_ne_of_take "main/" _ "App.class" (by decide),
             append_ne_of_take "main/" _ "lib.class" (by decide)⟩
    · exact ⟨append_ne_of_take "lib/" _ "App.class" (by decide),
             append_ne_of_take "lib/" _ "lib.class" (by decide)⟩
    · exact ⟨(by decide : ("res/a.txt" : String) ≠ "App.class"),
             (by decide : ("res/a.txt" : String) ≠ "lib.class")⟩
    · exact ⟨(by decide : ("META-INF/MANIFEST.MF" : String) ≠ "App.class"),
             (by decide : ("META-INF/MANIFEST.MF" : String) ≠ "lib.class")⟩

/-- Witness for C3 at concrete jars. -/
theorem onejar_merge_scenario_witness :
    pyEndsWith (pyLower "x.txt") "manifest.mf" = false ∧
    ("x.txt" : String) ≠ "res/a.txt" ∧
    ("x.txt" : String) ≠ "App.class" ∧
    ("x.txt" : String) ≠ "lib.class" ∧
    ("ma" : String) ≠ "da" ∧
    (ZipEntry.mk "x.txt" "xc" 9 ∈ generate_one_jar 9 "com.Example"
        ⟨"/j/M.jar", "MBYTES", 4, [("App.class", "ac"), ("res/a.txt", "ma")]⟩
        [⟨"/j/D.jar", "DBYTES", 5, [("res/a.txt", "da"), ("lib.class", "lc")]⟩]
        ⟨"/j/boot.jar", "BOOTBYTES", 3, [("META-INF/MANIFEST.MF", "mf"), ("x.txt", "xc")]⟩ ∧
     ZipEntry.mk ("main/" ++ pathBasename "/j/M.jar") "MBYTES" 4 ∈ generate_one_jar 9 "com.Example"
        ⟨"/j/M.jar", "MBYTES", 4, [("App.class", "ac"), ("res/a.txt", "ma")]⟩
        [⟨"/j/D.jar", "DBYTES", 5, [("res/a.txt", "da"), ("lib.class", "lc")]⟩]
        ⟨"/j/boot.jar", "BOOTBYTES", 3, [("META-INF/MANIFEST.MF", "mf"), ("x.txt", "xc")]⟩ ∧
     ZipEntry.mk ("lib/" ++ pathBasename "/j/D.jar") "DBYTES" 5 ∈ generate_one_jar 9 "com.Example"
        ⟨"/j/M.jar", "MBYTES", 4, [("App.class", "ac"), ("res/a.txt", "ma")]⟩
        [⟨"/j/D.jar", "DBYTES", 5, [("res/a.txt", "da"), ("lib.class", "lc")]⟩]
        ⟨"/j/boot.jar", "BOOTBYTES", 3, [("META-INF/MANIFEST.MF", "mf"), ("x.txt", "xc")]⟩ ∧
     ZipEntry.mk "res/a.txt" "ma" 9 ∈ generate_one_jar 9 "com.Example"
        ⟨"/j/M.jar", "MBYTES", 4, [("App.class", "ac"), ("res/a.txt", "ma")]⟩
        [⟨"/j/D.jar", "DBYTES", 5, [("res/a.txt", "da"), ("lib.class", "lc")]⟩]
        ⟨"/j/boot.jar", "BOOTBYTES", 3, [("META-INF/MANIFEST.MF", "mf"), ("x.txt", "xc")]⟩ ∧
     (∀ e ∈ generate_one_jar 9 "com.Example"
        ⟨"/j/M.jar", "MBYTES", 4, [("App.class", "ac"), ("res/a.txt", "ma")]⟩
        [⟨"/j/D.jar", "DBYTES", 5, [("res/a.txt", "da"), ("lib.class", "lc")]⟩]
        ⟨"/j/boot.jar", "BOOTBYTES", 3, [("META-INF/MANIFEST.MF", "mf"), ("x.txt", "xc")]⟩,
        e.name = "res/a.txt" → e.bytes = "ma") ∧
     (∀ e ∈ generate_one_jar 9 "com.Example"
        ⟨"/j/M.jar", "MBYTES", 4, [("App.class", "ac"), ("res/a.txt", "ma")]⟩
        [⟨"/j/D.jar", "DBYTES", 5, [("res/a.txt", "da"), ("lib.class", "lc")]⟩]
        ⟨"/j/boot.jar", "BOOTBYTES", 3, [("META-INF/MANIFEST.MF", "mf"), ("x.txt", "xc")]⟩,
        e.name ≠ "App.class" ∧ e.name ≠ "lib.class")) :=
  ⟨by decide, by decide, by decide, by decide, by decide,
   onejar_merge_scenario 9 "com.Example" "/j/M.jar" "MBYTES" 4 "ac" "ma"
     "/j/D.jar" "DBYTES" 5 "da" "lc" "/j/boot.jar" "BOOTBYTES" 3 "mf" "x.txt" "xc"
     _ rfl (by decide) (by decide) (by decide) (by decide) (by decide)⟩

/-- The time-independent data of a zip entry: its name and its bytes
(everything except the header timestamp). -/
def entryData (e : ZipEntry) : String × String := (e.name, e.bytes)

/-- C7 counterexample: re-running the zip packager on unchanged inputs
(same filesystem, sources, destinations) at clock times 0 and 1 yields
different archive bytes, because `writestr` stamps the current time into
the synthesized `MANIFEST.TXT` entry's header. -/
theorem zip_package_rerun_not_byte_identical :
    (generate_zip_package [("s", ⟨"hello", 5⟩)] 0 ["s"] ["d"]).map serializeZip ≠
    (generate_zip_package [("s", ⟨"hello", 5⟩)] 1 ["s"] ["d"]).map serializeZip := by
  decide

/-- Lemma: `copyJarResources` writes the same entry names and data and computes
the same seen set at any two clock times, from accumulators that agree on
data and seen set. -/
theorem copyJarResources_data_eq (t₁ t₂ : Nat) :
    ∀ (l : List (String × String)) (a₁ a₂ : List ZipEntry × List String),
    a₁.1.map entryData = a₂.1.map entryData → a₁.2 = a₂.2 →
    (copyJarResources t₁ a₁ l).1.map entryData =
      (copyJarResources t₂ a₂ l).1.map entryData ∧
    (copyJarResources t₁ a₁ l).2 = (copyJarResources t₂ a₂ l).2 := by
  intro l
  induction l with
  | nil => intro a₁ a₂ h1 h2; exact ⟨h1, h2⟩
  | cons e rest ih =>
    intro a₁ a₂ h1 h2
    obtain ⟨name, data⟩ := e
    unfold copyJarResources
    by_cases hc : (pyEndsWith name ".class" || pyStartsWith (pyUpper name) "META-INF") = true
    · simp only [hc, if_true]
      exact ih a₁ a₂ h1 h2
    · simp only [hc, if_false]
      rw [← h2]
      by_cases hm : name ∈ a₁.2
      · simp only [hm, if_true]
        exact ih a₁ a₂ h1 h2
      · simp only [hm, if_false]
        exact ih _ _ (by simp [h1, entryData]) (by simp [h2])

/-- C7 (amended): re-running any core generator with unchanged inputs
reproduces the same entry names and entry data bytes; full byte-identity
of the output file additionally requires the two runs to record the same
clock time, because the zip packager's manifest entry, every one-jar entry
synthesized by `writestr`, and the python binary's synthesized package
markers are stamped with the current time (the resource embedder's model
takes no clock input at all — its output is fully time-independent). -/
theorem generator_rerun_data_identical (fs : FS) (t₁ t₂ : Nat) :
    (∀ sources destinations,
      (generate_zip_package fs t₁ sources destinations).map (List.map entryData) =
      (generate_zip_package fs t₂ sources destinations).map (List.map entryData)) ∧
    (∀ path sources destinations suffix,
      (generate_tar_package fs t₁ path sources destinations suffix).map
          (fun o => (o.path, o.mode, o.entries.map (fun p => (p.1, p.2.bytes)), o.manifestSide)) =
      (generate_tar_package fs t₂ path sources destinations suffix).map
          (fun o => (o.path, o.mode, o.entries.map (fun p => (p.1, p.2.bytes)), o.manifestSide))) ∧
    (∀ mc mj jars bj,
      (generate_one_jar t₁ mc mj jars bj).map entryData =
      (generate_one_jar t₂ mc mj jars bj).map entryData) ∧
    (∀ me libs,
      (generate_python_binary_entry fs t₁ me libs).map (fun r => r.2.map entryData) =
      (generate_python_binary_entry fs t₂ me libs).map (fun r => r.2.map entryData)) := by
  refine ⟨?_, ?_, ?_, ?_⟩
  · intro sources destinations
    unfold generate_zip_package
    cases archive_package_sources fs sources destinations with
    | error e => rfl
    | ok pr => simp [Except.map, entryData]
  · intro path sources destinations suffix
    unfold generate_tar_package
    cases _TAR_WRITE_MODES.lookup suffix with
    | none => rfl
    | some mode =>
      cases archive_package_sources fs sources destinations with
      | error e => rfl
      | ok pr => simp [Except.map]
  · intro mc mj jars bj
    unfold generate_one_jar
    simp only [List.map_append]
    have hfold : ∀ (js : List JarFile) (a₁ a₂ : List ZipEntry × List String),
        a₁.1.map entryData = a₂.1.map entryData → a₁.2 = a₂.2 →
        (js.foldl (fun acc j => copyJarResources t₁ acc j.entries) a₁).1.map entryData =
          (js.foldl (fun acc j => copyJarResources t₂ acc j.entries) a₂).1.map entryData := by
      intro js
      induction js with
      | nil => intro a₁ a₂ h1 h2; exact h1
      | cons j rest ih =>
        intro a₁ a₂ h1 h2
        exact ih _ _ (copyJarResources_data_eq t₁ t₂ j.entries a₁ a₂ h1 h2).1
          (copyJarResources_data_eq t₁ t₂ j.entries a₁ a₂ h1 h2).2
    rw [hfold ([mj] ++ jars)
      ([], (bj.entries.filter (fun e => !pyEndsWith (pyLower e.1) "manifest.mf")).map (fun x => x.1))
      ([], (bj.entries.filter (fun e => !pyEndsWith (pyLower e.1) "manifest.mf")).map (fun x => x.1))
      rfl rfl]
    simp [entryData, List.map_map, Function.comp]
  · intro me libs
    unfold generate_python_binary_entry
    cases pyBinCopyLibs fs libs ([], [], []) with
    | error e => rfl
    | ok st =>
      obtain ⟨es, dirs, dwi⟩ := st
      simp [Except.map, pyBinMarkers, entryData, List.map_map, Function.comp]

/-- Witness for C1 at a concrete two-library spec. -/
theorem python_binary_polyglot_concat_witness :
    generate_python_binary_entry
        [("/a/pkg/mod.py", ⟨"A", 1⟩), ("/b/pkg/mod.py", ⟨"B", 2⟩)] 7 "pkg.mod"
        [⟨"/a", [("/a/pkg/mod.py", "h1")]⟩, ⟨"/b", [("/b/pkg/mod.py", "h2")]⟩] =
      .ok (⟨pythonBootstrap "pkg.mod" ++ serializeZip
              [⟨"pkg/mod.py", "A", 1⟩, ⟨"pkg/mod.py", "B", 2⟩,
               ⟨"pkg/__init__.py", "", 7⟩, ⟨"__init__.py", "", 7⟩], true⟩,
           [⟨"pkg/mod.py", "A", 1⟩, ⟨"pkg/mod.py", "B", 2⟩,
            ⟨"pkg/__init__.py", "", 7⟩, ⟨"__init__.py", "", 7⟩]) ∧
    ((OutFile.mk (pythonBootstrap "pkg.mod" ++ serializeZip
        [⟨"pkg/mod.py", "A", 1⟩, ⟨"pkg/mod.py", "B", 2⟩,
         ⟨"pkg/__init__.py", "", 7⟩, ⟨"__init__.py", "", 7⟩]) true).bytes =
      pythonBootstrap "pkg.mod" ++ serializeZip
        [⟨"pkg/mod.py", "A", 1⟩, ⟨"pkg/mod.py", "B", 2⟩,
         ⟨"pkg/__init__.py", "", 7⟩, ⟨"__init__.py", "", 7⟩] ∧
     (OutFile.mk (pythonBootstrap "pkg.mod" ++ serializeZip
        [⟨"pkg/mod.py", "A", 1⟩, ⟨"pkg/mod.py", "B", 2⟩,
         ⟨"pkg/__init__.py", "", 7⟩, ⟨"__init__.py", "", 7⟩]) true).executable = true) :=
  ⟨by decide,
   python_binary_polyglot_concat
     [("/a/pkg/mod.py", ⟨"A", 1⟩), ("/b/pkg/mod.py", ⟨"B", 2⟩)] 7 "pkg.mod"
     [⟨"/a", [("/a/pkg/mod.py", "h1")]⟩, ⟨"/b", [("/b/pkg/mod.py", "h2")]⟩]
     _ _ (by decide)⟩

/-! ## Directory-set characterization for the python binary builder -/

/-- The archive-relative names of all library files written by the copy
phase, in write order. -/
def writtenArcnames (libs : List PyLib) : List String :=
  libs.foldr (fun lib acc => lib.srcs.map (fun sd => relpath sd.1 lib.base_dir) ++ acc) []

/-- The `dirs` set after recording every directory prefix of every name in
`names`, starting from `init`. -/
def dirsOfNames (init names : List String) : List String :=
  names.foldl (fun ds a => (dirPrefixes a).foldl addSet ds) init

/-- The `dirs_with_init_py` set after recording every name in `names`,
starting from `init`. -/
def initDirsOfNames (init names : List String) : List String :=
  names.foldl
    (fun ds a => if pathBasename a = "__init__.py" then addSet ds (pathDirname a) else ds)
    init

theorem mem_addSet (s : List String) (x y : String) :
    y ∈ addSet s x ↔ y ∈ s ∨ y = x := by
  unfold addSet
  split_ifs with h
  · exact ⟨Or.inl, fun h2 => h2.elim id fun he => he ▸ h⟩
  · simp [List.mem_append]

theorem nodup_addSet (s : List String) (x : String) (h : s.Nodup) :
    (addSet s x).Nodup := by
  unfold addSet
  split_ifs with hm
  · exact h
  · simp [List.nodup_append, h, hm]

theorem mem_foldl_addSet :
    ∀ (l s : List String) (y : String), y ∈ l.foldl addSet s ↔ y ∈ s ∨ y ∈ l := by
  intro l
  induction l with
  | nil => simp
  | cons a as ih =>
    intro s y
    simp only [List.foldl_cons]
    rw [ih, mem_addSet]
    simp only [List.mem_cons]
    tauto

theorem nodup_foldl_addSet :
    ∀ (l s : List String), s.Nodup → (l.foldl addSet s).Nodup := by
  intro l
  induction l with
  | nil => intro s h; exact h
  | cons a as ih => intro s h; exact ih (addSet s a) (nodup_addSet s a h)

theorem mem_dirsOfNames :
    ∀ (names init : List String) (y : String),
    y ∈ dirsOfNames init names ↔ y ∈ init ∨ ∃ a ∈ names, y ∈ dirPrefixes a := by
  intro names
  induction names with
  | nil => simp [dirsOfNames]
  | cons a as ih =>
    intro init y
    unfold dirsOfNames
    simp only [List.foldl_cons]
    rw [show (as.foldl (fun ds b => (dirPrefixes b).foldl addSet ds)
        ((dirPrefixes a).foldl addSet init)) =
      dirsOfNames ((dirPrefixes a).foldl addSet init) as from rfl]
    rw [ih, mem_foldl_addSet]
    simp only [List.mem_cons]
    constructor
    · rintro (⟨h | h⟩ | ⟨b, hb, hy⟩)
      · exact Or.inl h
      · exact Or.inr ⟨a, Or.inl rfl, h⟩
      · exact Or.inr ⟨b, Or.inr hb, hy⟩
    · rintro (h | ⟨b, rfl | hb, hy⟩)
      · exact Or.inl (Or.inl h)
      · exact Or.inl (Or.inr hy)
      · exact Or.inr ⟨b, hb, hy⟩

theorem nodup_dirsOfNames :
    ∀ (names init : List String), init.Nodup → (dirsOfNames init names).Nodup := by
  intro names
  induction names with
  | nil => intro init h; exact h
  | cons a as ih =>
    intro init h
    exact ih ((dirPrefixes a).foldl addSet init) (nodup_foldl_addSet _ init h)

theorem mem_initDirsOfNames :
    ∀ (names init : List String) (y : String),
    y ∈ initDirsOfNames init names ↔
      y ∈ init ∨ ∃ a ∈ names, pathBasename a = "__init__.py" ∧ pathDirname a = y := by
  intro names
  induction names with
  | nil => simp [initDirsOfNames]
  | cons a as ih =>
    intro init y
    unfold initDirsOfNames
    simp only [List.foldl_cons]
    rw [show (as.foldl
        (fun ds b => if pathBasename b = "__init__.py" then addSet ds (pathDirname b) else ds)
        (if pathBasename a = "__init__.py" then addSet init (pathDirname a) else init)) =
      initDirsOfNames
        (if pathBasename a = "__init__.py" then addSet init (pathDirname a) else init) as
      from rfl]
    rw [ih]
    by_cases hb : pathBasename a = "__init__.py"
    · simp only [hb, if_true]
      rw [mem_addSet]
      simp only [List.mem_cons]
      constructor
      · rintro (⟨h | h⟩ | ⟨b, hbm, hby, hbd⟩)
        · exact Or.inl h
        · exact Or.inr ⟨a, Or.inl rfl, hb, h.symm⟩
        · exact Or.inr ⟨b, Or.inr hbm, hby, hbd⟩
      · rintro (h | ⟨b, rfl | hbm, hby, hbd⟩)
        · exact Or.inl (Or.inl h)
        · exact Or.inl (Or.inr hbd.symm)
        · exact Or.inr ⟨b, hbm, hby, hbd⟩
    · simp only [hb, if_false]
      simp only [List.mem_cons]
      constructor
      · rintro (h | ⟨b, hbm, hby, hbd⟩)
        · exact Or.inl h
        · exact Or.inr ⟨b, Or.inr hbm, hby, hbd⟩
      · rintro (h | ⟨b, rfl | hbm, hby, hbd⟩)
        · exact Or.inl h
        · exact absurd hby hb
        · exact Or.inr ⟨b, hbm, hby, hbd⟩

/-- State characterization of the per-library copy loop: the written names
extend the initial ones by the arcnames of the sources in order, and both
directory sets are the recordings of those arcnames on top of the initial
sets. -/
theorem pyBinCopySrcs_state (fs : FS) (base : String) :
    ∀ (srcs : List (String × String)) (st : List ZipEntry × List String × List String)
      (entries : List ZipEntry) (dirs dwi : List String),
    pyBinCopySrcs fs base srcs st = .ok (entries, dirs, dwi) →
    entries.map (fun e => e.name) =
      st.1.map (fun e => e.name) ++ srcs.map (fun sd => relpath sd.1 base) ∧
    dirs = dirsOfNames st.2.1 (srcs.map (fun sd => relpath sd.1 base)) ∧
    dwi = initDirsOfNames st.2.2 (srcs.map (fun sd => relpath sd.1 base)) := by
  intro srcs
  induction srcs with
  | nil =>
    intro st entries dirs dwi h
    simp only [pyBinCopySrcs, Except.ok.injEq] at h
    subst h
    simp [dirsOfNames, initDirsOfNames]
  | cons sd rest ih =>
    intro st entries dirs dwi h
    obtain ⟨es0, ds0, dw0⟩ := st
    obtain ⟨libsrc, dg⟩ := sd
    unfold pyBinCopySrcs at h
    cases hr : fsRead fs libsrc with
    | none => rw [hr] at h; cases h
    | some file =>
      rw [hr] at h
      simp only [_update_init_py_dirs] at h
      obtain ⟨h1, h2, h3⟩ := ih _ entries dirs dwi h
      simp only [List.map_append, List.map_cons, List.map_nil] at h1
      refine ⟨?_, ?_, ?_⟩
      · rw [h1]; simp
      · rw [h2]; rfl
      · rw [h3]; rfl

/-- State characterization of the whole copy phase over all libraries. -/
theorem pyBinCopyLibs_state (fs : FS) :
    ∀ (libs : List PyLib) (st : List ZipEntry × List String × List String)
      (entries : List ZipEntry) (dirs dwi : List String),
    pyBinCopyLibs fs libs st = .ok (entries, dirs, dwi) →
    entries.map (fun e => e.name) = st.1.map (fun e => e.name) ++ writtenArcnames libs ∧
    dirs = dirsOfNames st.2.1 (writtenArcnames libs) ∧
    dwi = initDirsOfNames st.2.2 (writtenArcnames libs) := by
  intro libs
  induction libs with
  | nil =>
    intro st entries dirs dwi h
    simp only [pyBinCopyLibs, Except.ok.injEq] at h
    subst h
    simp [writtenArcnames, dirsOfNames, initDirsOfNames]
  | cons lib rest ih =>
    intro st entries dirs dwi h
    unfold pyBinCopyLibs at h
    cases hs : pyBinCopySrcs fs lib.base_dir lib.srcs st with
    | error e => rw [hs] at h; cases h
    | ok st2 =>
      rw [hs] at h
      obtain ⟨es2, ds2, dw2⟩ := st2
      obtain ⟨g1, g2, g3⟩ := pyBinCopySrcs_state fs lib.base_dir lib.srcs st es2 ds2 dw2 hs
      obtain ⟨h1, h2, h3⟩ := ih _ entries dirs dwi h
      have hw : writtenArcnames (lib :: rest) =
          lib.srcs.map (fun sd => relpath sd.1 lib.base_dir) ++ writtenArcnames rest := rfl
      refine ⟨?_, ?_, ?_⟩
      · rw [h1, g1, hw, List.append_assoc]
      · rw [h2, g2, hw]; exact (List.foldl_append _ _ _ _).symm
      · rw [h3, g3, hw]; exact (List.foldl_append _ _ _ _).symm

/-- The synthesized-marker name map `d ↦ <d>/__init__.py` (empty `d`
mapping to the root name) is injective, so each missing directory yields a
distinct marker entry. -/
theorem initMarker_injective (t : Nat) :
    Function.Injective (fun d => ZipEntry.mk (pathJoin d "__init__.py") "" t) := by
  intro a b h
  simp only [ZipEntry.mk.injEq, and_true] at h
  unfold pathJoin at h
  split_ifs at h with ha hb hb
  · rw [ha, hb]
  · exfalso
    have := congrArg String.length h
    rw [String.length_append, String.length_append] at this
    have h11 : ("__init__.py" : String).length = 11 := by decide
    have h1 : ("/" : String).length = 1 := by decide
    omega
  · exfalso
    have := congrArg String.length h
    rw [String.length_append, String.length_append] at this
    have h11 : ("__init__.py" : String).length = 11 := by decide
    have h1 : ("/" : String).length = 1 := by decide
    omega
  · have hd := congrArg String.data h
    rw [String.data_append, String.data_append, String.data_append, String.data_append]
      at hd
    rw [List.append_assoc, List.append_assoc] at hd
    exact String.ext (List.append_cancel_right hd)

/-- C6: after all library files are copied, every non-empty directory
prefix of every written archive-relative name that does not already
contain a written `__init__.py` entry receives exactly one synthesized
empty marker entry among the synthesized tail, and one empty marker entry
is synthesized at the archive root (as the final entry); in particular,
for two libraries each contributing `pkg/mod.py` and no markers, the
archive holds exactly one `pkg`-level marker and one root-level marker. -/
theorem python_binary_missing_markers :
    (∀ (fs : FS) (t : Nat) (me : String) (libs : List PyLib)
       (out : OutFile) (entries : List ZipEntry),
      generate_python_binary_entry fs t me libs = .ok (out, entries) →
      ∃ written synth, entries = written ++ synth ∧
        written.map (fun e => e.name) = writtenArcnames libs ∧
        (∀ d, d ≠ "" →
          (∃ a ∈ writtenArcnames libs, d ∈ dirPrefixes a) →
          (¬ ∃ b ∈ writtenArcnames libs,
              pathBasename b = "__init__.py" ∧ pathDirname b = d) →
          synth.count ⟨pathJoin d "__init__.py", "", t⟩ = 1) ∧
        synth.getLast? = some ⟨"__init__.py", "", t⟩) ∧
    (∀ t : Nat,
      generate_python_binary_entry
          [("/a/pkg/mod.py", ⟨"A", 1⟩), ("/b/pkg/mod.py", ⟨"B", 2⟩)] t "pkg.mod"
          [⟨"/a", [("/a/pkg/mod.py", "h1")]⟩, ⟨"/b", [("/b/pkg/mod.py", "h2")]⟩] =
        .ok (⟨pythonBootstrap "pkg.mod" ++ serializeZip
                [⟨"pkg/mod.py", "A", 1⟩, ⟨"pkg/mod.py", "B", 2⟩,
                 ⟨"pkg/__init__.py", "", t⟩, ⟨"__init__.py", "", t⟩], true⟩,
             [⟨"pkg/mod.py", "A", 1⟩, ⟨"pkg/mod.py", "B", 2⟩,
              ⟨"pkg/__init__.py", "", t⟩, ⟨"__init__.py", "", t⟩])) := by
  constructor
  · intro fs t me libs out entries h
    unfold generate_python_binary_entry at h
    cases hc : pyBinCopyLibs fs libs ([], [], []) with
    | error e => rw [hc] at h; cases h
    | ok st =>
      obtain ⟨es, dirs, dwi⟩ := st
      rw [hc] at h
      simp only [Except.ok.injEq, Prod.mk.injEq] at h
      obtain ⟨hout, hent⟩ := h
      subst hent
      obtain ⟨hnames, hdirs, hdwi⟩ := pyBinCopyLibs_state fs libs ([], [], []) es dirs dwi hc
      simp only [List.map_nil, List.nil_append] at hnames
      refine ⟨es, pyBinMarkers t dirs dwi, rfl, hnames, ?_, ?_⟩
      · intro d hne hpre hnomark
        have hdin : d ∈ dirs := by
          rw [hdirs, mem_dirsOfNames]
          exact Or.inr hpre
        have hdout : d ∉ dwi := by
          rw [hdwi, mem_initDirsOfNames]
          rintro (hfalse | hex)
          · exact absurd hfalse (List.not_mem_nil d)
          · exact hnomark hex
        have hmiss : d ∈ dirs.filter (fun x => x ∉ dwi) := by
          rw [List.mem_filter]
          exact ⟨hdin, by simpa using hdout⟩
        have hndd : dirs.Nodup := by
          rw [hdirs]; exact nodup_dirsOfNames _ _ List.nodup_nil
        have hnd : (dirs.filter (fun x => x ∉ dwi)).Nodup := hndd.filter _
        have hperm := List.perm_insertionSort (fun a b => pyStrLe a b = true)
          (dirs.filter (fun x => x ∉ dwi))
        have hsmem : d ∈ sortStr (dirs.filter (fun x => x ∉ dwi)) := by
          unfold sortStr
          exact hperm.mem_iff.mpr hmiss
        have hsnd : (sortStr (dirs.filter (fun x => x ∉ dwi))).Nodup := by
          unfold sortStr
          exact hperm.nodup_iff.mpr hnd
        unfold pyBinMarkers
        rw [List.count_append]
        have hc1 : ((sortStr (dirs.filter (fun x => x ∉ dwi))).map
            (fun d => ZipEntry.mk (pathJoin d "__init__.py") "" t)).count
            (ZipEntry.mk (pathJoin d "__init__.py") "" t) = 1 := by
          rw [List.count_map_of_injective _ _ (initMarker_injective t)]
          exact List.count_eq_one_of_mem hsnd hsmem
        have hne2 : ZipEntry.mk (pathJoin d "__init__.py") "" t ≠
            ZipEntry.mk "__init__.py" "" t := by
          simp only [ne_eq, ZipEntry.mk.injEq, and_true]
          unfold pathJoin
          rw [if_neg hne]
          intro hEq
          have hlen := congrArg String.length hEq
          rw [String.length_append, String.length_append] at hlen
          have h11 : ("__init__.py" : String).length = 11 := by decide
          have h1 : ("/" : String).length = 1 := by decide
          omega
        have hc2 : ([ZipEntry.mk "__init__.py" "" t]).count
            (ZipEntry.mk (pathJoin d "__init__.py") "" t) = 0 := by
          rw [List.count_eq_zero]
          simp only [List.mem_singleton]
          exact hne2
        rw [hc1, hc2]
      · unfold pyBinMarkers
        exact List.getLast?_concat _
  · intro t
    rfl

/-- Witness for C6's quantified part at the concrete two-library spec. -/
theorem python_binary_missing_markers_witness :
    generate_python_binary_entry
        [("/a/pkg/mod.py", ⟨"A", 1⟩), ("/b/pkg/mod.py", ⟨"B", 2⟩)] 3 "pkg.mod"
        [⟨"/a", [("/a/pkg/mod.py", "h1")]⟩, ⟨"/b", [("/b/pkg/mod.py", "h2")]⟩] =
      .ok (⟨pythonBootstrap "pkg.mod" ++ serializeZip
              [⟨"pkg/mod.py", "A", 1⟩, ⟨"pkg/mod.py", "B", 2⟩,
               ⟨"pkg/__init__.py", "", 3⟩, ⟨"__init__.py", "", 3⟩], true⟩,
           [⟨"pkg/mod.py", "A", 1⟩, ⟨"pkg/mod.py", "B", 2⟩,
            ⟨"pkg/__init__.py", "", 3⟩, ⟨"__init__.py", "", 3⟩]) ∧
    (∃ written synth,
      ([⟨"pkg/mod.py", "A", 1⟩, ⟨"pkg/mod.py", "B", 2⟩,
        ⟨"pkg/__init__.py", "", 3⟩, ⟨"__init__.py", "", 3⟩] : List ZipEntry) =
          written ++ synth ∧
      written.map (fun e => e.name) =
        writtenArcnames [⟨"/a", [("/a/pkg/mod.py", "h1")]⟩, ⟨"/b", [("/b/pkg/mod.py", "h2")]⟩] ∧
      (∀ d, d ≠ "" →
        (∃ a ∈ writtenArcnames [⟨"/a", [("/a/pkg/mod.py", "h1")]⟩,
            ⟨"/b", [("/b/pkg/mod.py", "h2")]⟩], d ∈ dirPrefixes a) →
        (¬ ∃ b ∈ writtenArcnames [⟨"/a", [("/a/pkg/mod.py", "h1")]⟩,
            ⟨"/b", [("/b/pkg/mod.py", "h2")]⟩],
            pathBasename b = "__init__.py" ∧ pathDirname b = d) →
        synth.count ⟨pathJoin d "__init__.py", "", 3⟩ = 1) ∧
      synth.getLast? = some ⟨"__init__.py", "", 3⟩) :=
  ⟨by decide,
   python_binary_missing_markers.1
     [("/a/pkg/mod.py", ⟨"A", 1⟩), ("/b/pkg/mod.py", ⟨"B", 2⟩)] 3 "pkg.mod"
     [⟨"/a", [("/a/pkg/mod.py", "h1")]⟩, ⟨"/b", [("/b/pkg/mod.py", "h2")]⟩]
     ⟨pythonBootstrap "pkg.mod" ++ serializeZip
        [⟨"pkg/mod.py", "A", 1⟩, ⟨"pkg/mod.py", "B", 2⟩,
         ⟨"pkg/__init__.py", "", 3⟩, ⟨"__init__.py", "", 3⟩], true⟩
     [⟨"pkg/mod.py", "A", 1⟩, ⟨"pkg/mod.py", "B", 2⟩,
      ⟨"pkg/__init__.py", "", 3⟩, ⟨"__init__.py", "", 3⟩] (by decide)⟩

/-- C10: the root-level `__init__.py` marker is written unconditionally as
the archive's final entry, even when a library already contributes a
root-level `__init__.py` file, so the output archive can contain two
entries named `__init__.py`; the empty root prefix is never added to the
recorded directory-prefix set (only to the marker-owning set), hence never
subject to the lacking-a-marker check. -/
theorem python_binary_root_marker_unconditional :
    (∀ (fs : FS) (t : Nat) (me : String) (libs : List PyLib)
       (out : OutFile) (entries : List ZipEntry),
      generate_python_binary_entry fs t me libs = .ok (out, entries) →
      entries.getLast? = some ⟨"__init__.py", "", t⟩) ∧
    pyBinCopyLibs [("/a/__init__.py", ⟨"I", 1⟩), ("/a/pkg/mod.py", ⟨"A", 2⟩)]
        [⟨"/a", [("/a/__init__.py", "h1"), ("/a/pkg/mod.py", "h2")]⟩] ([], [], []) =
      .ok ([⟨"__init__.py", "I", 1⟩, ⟨"pkg/mod.py", "A", 2⟩], ["pkg"], [""]) ∧
    (∀ t : Nat,
      generate_python_binary_entry
          [("/a/__init__.py", ⟨"I", 1⟩), ("/a/pkg/mod.py", ⟨"A", 2⟩)] t "pkg.mod"
          [⟨"/a", [("/a/__init__.py", "h1"), ("/a/pkg/mod.py", "h2")]⟩] =
        .ok (⟨pythonBootstrap "pkg.mod" ++ serializeZip
                [⟨"__init__.py", "I", 1⟩, ⟨"pkg/mod.py", "A", 2⟩,
                 ⟨"pkg/__init__.py", "", t⟩, ⟨"__init__.py", "", t⟩], true⟩,
             [⟨"__init__.py", "I", 1⟩, ⟨"pkg/mod.py", "A", 2⟩,
              ⟨"pkg/__init__.py", "", t⟩, ⟨"__init__.py", "", t⟩]) ∧
      (([⟨"__init__.py", "I", 1⟩, ⟨"pkg/mod.py", "A", 2⟩,
         ⟨"pkg/__init__.py", "", t⟩, ⟨"__init__.py", "", t⟩] : List ZipEntry).map
        (fun e => e.name)).count "__init__.py" = 2) := by
  refine ⟨?_, by decide, fun t => ⟨rfl, rfl⟩⟩
  intro fs t me libs out entries h
  unfold generate_python_binary_entry at h
  cases hc : pyBinCopyLibs fs libs ([], [], []) with
  | error e => rw [hc] at h; cases h
  | ok st =>
    obtain ⟨es, dirs, dwi⟩ := st
    rw [hc] at h
    simp only [Except.ok.injEq, Prod.mk.injEq] at h
    obtain ⟨hout, hent⟩ := h
    subst hent
    unfold pyBinMarkers
    rw [← List.append_assoc]
    exact List.getLast?_concat _

/-- Witness for C10's quantified part. -/
theorem python_binary_root_marker_unconditional_witness :
    generate_python_binary_entry
        [("/a/__init__.py", ⟨"I", 1⟩), ("/a/pkg/mod.py", ⟨"A", 2⟩)] 5 "pkg.mod"
        [⟨"/a", [("/a/__init__.py", "h1"), ("/a/pkg/mod.py", "h2")]⟩] =
      .ok (⟨pythonBootstrap "pkg.mod" ++ serializeZip
              [⟨"__init__.py", "I", 1⟩, ⟨"pkg/mod.py", "A", 2⟩,
               ⟨"pkg/__init__.py", "", 5⟩, ⟨"__init__.py", "", 5⟩], true⟩,
           [⟨"__init__.py", "I", 1⟩, ⟨"pkg/mod.py", "A", 2⟩,
            ⟨"pkg/__init__.py", "", 5⟩, ⟨"__init__.py", "", 5⟩]) ∧
    ([⟨"__init__.py", "I", 1⟩, ⟨"pkg/mod.py", "A", 2⟩,
      ⟨"pkg/__init__.py", "", 5⟩, ⟨"__init__.py", "", 5⟩] : List ZipEntry).getLast? =
      some ⟨"__init__.py", "", 5⟩ :=
  ⟨by decide,
   python_binary_root_marker_unconditional.1
     [("/a/__init__.py", ⟨"I", 1⟩), ("/a/pkg/mod.py", ⟨"A", 2⟩)] 5 "pkg.mod"
     [⟨"/a", [("/a/__init__.py", "h1"), ("/a/pkg/mod.py", "h2")]⟩]
     ⟨pythonBootstrap "pkg.mod" ++ serializeZip
        [⟨"__init__.py", "I", 1⟩, ⟨"pkg/mod.py", "A", 2⟩,
         ⟨"pkg/__init__.py", "", 5⟩, ⟨"__init__.py", "", 5⟩], true⟩
     [⟨"__init__.py", "I", 1⟩, ⟨"pkg/mod.py", "A", 2⟩,
      ⟨"pkg/__init__.py", "", 5⟩, ⟨"__init__.py", "", 5⟩] (by decide)⟩
